import Mathlib

/-!
Verification of the segment-scoring / clip-selection / assembly pipeline of the
youtube-video-mixer-upload repository.  The Python sources are shallowly
embedded over the rationals: every float becomes a `Rat`, every fallible or
external operation (OpenCV frame reads, face_recognition, MoviePy calls,
`random.uniform`) becomes an explicit oracle parameter, and exception-driven
control flow becomes `Option`/`Except` values.
-/

namespace VideoMixer

/- ------------------------------------------------------------------ -/
/- Constants, from src/constants.py                                    -/
/- ------------------------------------------------------------------ -/

/-- Scoring weights, from constants.py lines 67-72 (`SCORING_WEIGHTS`). -/
structure ScoringWeights where
  visual_interest : ℚ
  face_detection : ℚ
  motion : ℚ
  face_boost : ℚ

/-- constants.py `SCORING_WEIGHTS = {visual_interest: 0.3, face_detection: 0.4,
motion: 0.3, face_boost: 2.0}`. -/
def SCORING_WEIGHTS : ScoringWeights :=
  { visual_interest := 3/10, face_detection := 2/5, motion := 3/10, face_boost := 2 }

/-- Detection parameters, from constants.py lines 58-64 (`DETECTION_PARAMS`). -/
structure DetectionParams where
  face_similarity_threshold : ℚ
  text_detection_threshold : ℚ
  subtitle_zone_part : ℚ
  text_penalty_high : ℚ
  text_penalty_medium : ℚ

/-- constants.py `DETECTION_PARAMS = {face_similarity_threshold: 0.4,
text_detection_threshold: 0.5, subtitle_zone_ratio: 0.7, text_penalty_high: 0.1,
text_penalty_medium: 0.5}`. -/
def DETECTION_PARAMS : DetectionParams :=
  { face_similarity_threshold := 2/5, text_detection_threshold := 1/2,
    subtitle_zone_part := 7/10, text_penalty_high := 1/10, text_penalty_medium := 1/2 }

/-- Face detection backend variant, the `face_model` field of an analysis mode. -/
inductive FaceModel where
  | hog : FaceModel
  | cnn : FaceModel

/-- One analysis mode record, from constants.py `ANALYSIS_MODES` values. -/
structure AnalysisMode where
  segment_duration : ℚ
  frames_per_segment : ℕ
  max_segments : ℕ
  face_model : FaceModel
  upsample : ℕ

/-- Keys of the `ANALYSIS_MODES` dict (the emoji strings of constants.py). -/
inductive AnalysisModeKey where
  | rapide : AnalysisModeKey
  | precis : AnalysisModeKey
  | tres_precis : AnalysisModeKey

/-- constants.py lines 33-55: the three analysis presets. -/
def ANALYSIS_MODES : AnalysisModeKey → AnalysisMode
  | .rapide => { segment_duration := 3, frames_per_segment := 1, max_segments := 30,
                 face_model := .hog, upsample := 0 }
  | .precis => { segment_duration := 3/2, frames_per_segment := 2, max_segments := 60,
                 face_model := .hog, upsample := 1 }
  | .tres_precis => { segment_duration := 1, frames_per_segment := 3, max_segments := 100,
                      face_model := .hog, upsample := 1 }

/- ------------------------------------------------------------------ -/
/- Text detection and penalty, from src/text_detector.py               -/
/- ------------------------------------------------------------------ -/

/-- text_detector.py lines 359-374 (`calculate_text_penalty`): strict comparisons
against 0.3 and 0.2, returning the constants of `DETECTION_PARAMS`. -/
def calculate_text_penalty (text_score : ℚ) : ℚ :=
  if 3/10 < text_score then DETECTION_PARAMS.text_penalty_high
  else if 1/5 < text_score then DETECTION_PARAMS.text_penalty_medium
  else 1

/-- Arithmetic mean of a list of rationals, embedding `np.mean` (sum over length;
on the empty list this formalization yields 0, a case the callers below guard). -/
def npMean (l : List ℚ) : ℚ := l.sum / l.length

/-- text_detector.py lines 91-122: the confidence analysis of the EAST score
grid `scores[0,0,y][x]` (`rows` indexed by `y`).  Cells below the detection
threshold are skipped; those in the bottom 30 percent of rows
(`y > numRows * 0.7`) count toward `bottom_text_count`;
`text_score = min((num_detections / 20) * avg_confidence, 1.0)`, multiplied by
1.5 and re-capped at 1.0 when `bottom_text_count > 2`. -/
def east_text_score (rows : List (List ℚ)) : ℚ :=
  let numRows := rows.length
  let confidences :=
    (rows.map (fun row =>
      row.filter (fun s => decide (DETECTION_PARAMS.text_detection_threshold ≤ s)))).flatten
  let bottom_text_count :=
    ((rows.enum.filter (fun p => decide ((numRows : ℚ) * (7/10) < (p.1 : ℚ)))).map
      (fun p =>
        (p.2.filter (fun s => decide (DETECTION_PARAMS.text_detection_threshold ≤ s))).length)).sum
  if confidences.length ≠ 0 then
    let avg_confidence := npMean confidences
    let num_detections : ℚ := confidences.length
    let text_score := min ((num_detections / 20) * avg_confidence) 1
    if 2 < bottom_text_count then min (text_score * (3/2)) 1 else text_score
  else 0

/-- text_detector.py lines 52-125 (`detect_text_in_frame`), with the external
steps abstracted: `has_net` is whether a `net` argument was supplied (line 65),
`frame_error` models any exception escaping the body (caught at line 124),
`subtitle_white_part` is the fraction of near-white pixels found in the bottom
subtitle zone (line 81), and `east_scores` is the EAST score grid returned by
`_run_east_detection`, `none` when that helper returned `(None, None)` after an
internal exception. -/
def detect_text_in_frame (has_net : Bool) (frame_error : Bool)
    (focus_on_subtitles : Bool) (subtitle_white_part : ℚ)
    (east_scores : Option (List (List ℚ))) : ℚ :=
  if !has_net then 0
  else if frame_error then 0
  else if focus_on_subtitles && decide (1/100 < subtitle_white_part) then 4/5
  else
    match east_scores with
    | none => 0
    | some rows => east_text_score rows

/- ------------------------------------------------------------------ -/
/- Face detection scores, from src/face_detector.py                    -/
/- ------------------------------------------------------------------ -/

/-- A face location as returned by the face_recognition backend: the
`(top, right, bottom, left)` bounding box, together with the embedding distance
to the target face reported by `face_recognition.face_distance` (an oracle for
the external model). -/
structure FaceLocation where
  top : ℚ
  right : ℚ
  bottom : ℚ
  left : ℚ
  distance : ℚ

/-- The per-face record built by `detect_faces_in_frame`
(face_detector.py lines 100-138), keeping the fields the scorer reads. -/
structure FaceData where
  x : ℚ
  y : ℚ
  width : ℚ
  height : ℚ
  is_target : Bool
  similarity_score : ℚ
  position_score : ℚ
  size_score : ℚ

/-- face_detector.py lines 102-138: build one `FaceData` from a detected
location.  `size_score = (face_area / frame_area) * 1000`; the position score
compares `top / frame_height` (the top edge of the box, line 124) against 0.7
and 0.5; a face is the target when its embedding distance is strictly below the
similarity threshold (line 135). -/
def mkFaceData (frame_width frame_height : ℚ) (similarity_threshold : ℚ)
    (has_target_encoding : Bool) (f : FaceLocation) : FaceData :=
  let w := f.right - f.left
  let h := f.bottom - f.top
  let size_score := (w * h) / (frame_width * frame_height) * 1000
  let vertical_position := f.top / frame_height
  let position_score : ℚ :=
    if 7/10 < vertical_position then 3/10
    else if 1/2 < vertical_position then 7/10
    else 1
  { x := f.left, y := f.top, width := w, height := h,
    is_target := has_target_encoding && decide (f.distance < similarity_threshold),
    similarity_score := if has_target_encoding then 1 - f.distance else 0,
    position_score := position_score, size_score := size_score }

/-- face_detector.py lines 61-144 (`detect_faces_in_frame`), with the external
`face_recognition.face_locations` call abstracted by the oracle list `locs`. -/
def detect_faces_in_frame (frame_width frame_height : ℚ) (locs : List FaceLocation)
    (has_target_encoding : Bool) (similarity_threshold : ℚ) : List FaceData :=
  locs.map (mkFaceData frame_width frame_height similarity_threshold has_target_encoding)

/-- face_detector.py lines 146-176 (`calculate_face_score`): per face
`size_score * position_score`, tripled for a matched target face when
`has_target`, summed, then multiplied by 1.2 when more than one face. -/
def calculate_face_score (faces_data : List FaceData) (has_target : Bool) : ℚ :=
  if faces_data.isEmpty then 0
  else
    let total_score :=
      (faces_data.map (fun face =>
        let face_score := face.size_score * face.position_score
        if has_target && face.is_target then face_score * 3 else face_score)).sum
    if 1 < faces_data.length then total_score * (6/5) else total_score

/- ------------------------------------------------------------------ -/
/- Segment analysis, from src/video_analyzer.py                        -/
/- ------------------------------------------------------------------ -/

/-- Python `int()` applied to a rational: truncation toward zero
(`int(x)` in video_analyzer.py line 127). -/
def pyInt (q : ℚ) : ℤ := if 0 ≤ q then ⌊q⌋ else -⌊-q⌋

/-- The segment loop of video_analyzer.py lines 139-148, reduced to the start
times it examines: segment `i` starts at `exclude_first + i * seg_dur`
(line 144) and the loop breaks as soon as `start + min_clip > duration`
(line 147).  `fuel` is the remaining number of loop iterations of
`range(num_segments)`. -/
def segmentStartsAux (duration exclude_first min_clip seg_dur : ℚ) : ℕ → ℕ → List ℚ
  | _, 0 => []
  | i, fuel + 1 =>
    let start := exclude_first + (i : ℚ) * seg_dur
    if duration < start + min_clip then []
    else start :: segmentStartsAux duration exclude_first min_clip seg_dur (i + 1) fuel

/-- video_analyzer.py line 127:
`num_segments = min(max_segments, int((available_duration - min_clip_duration) /
analysis_segment_duration))` where `available_duration = duration - exclude_first`. -/
def num_segments (duration exclude_first min_clip seg_dur : ℚ) (max_segments : ℕ) : ℤ :=
  min (max_segments : ℤ) (pyInt ((duration - exclude_first - min_clip) / seg_dur))

/-- The list of segment start times examined by
`analyze_video_segments_with_face` (a negative `num_segments` gives an empty
`range`, hence `Int.toNat`). -/
def segmentStarts (duration exclude_first min_clip seg_dur : ℚ) (max_segments : ℕ) : List ℚ :=
  segmentStartsAux duration exclude_first min_clip seg_dur 0
    (num_segments duration exclude_first min_clip seg_dur max_segments).toNat

/-- The sub-scores of one sampled frame, produced by the pixel-level scorers
(`calculate_visual_interest_score`, face scoring, `calculate_motion_score`,
text penalty) which depend on external OpenCV state and are treated as oracle
data here. -/
structure FrameSignals where
  visual_score : ℚ
  face_score : ℚ
  motion_score : ℚ
  text_penalty : ℚ

/-- video_analyzer.py lines 206-210: the combined score of one frame,
`(visual*0.3 + face*0.4 + motion*0.3) * text_penalty`. -/
def frame_total_score (s : FrameSignals) : ℚ :=
  (s.visual_score * SCORING_WEIGHTS.visual_interest +
   s.face_score * SCORING_WEIGHTS.face_detection +
   s.motion_score * SCORING_WEIGHTS.motion) * s.text_penalty

/-- video_analyzer.py lines 214-228: if any frame was scored, the segment
aggregate is the mean of the per-frame combined scores, multiplied by
`SCORING_WEIGHTS['face_boost']` exactly when the target face was seen;
`none` models the `if scores_in_segment:` guard failing (no frame read). -/
def segment_aggregate_score (frames : List FrameSignals) (has_target_face : Bool) : Option ℚ :=
  let scores_in_segment := frames.map frame_total_score
  if scores_in_segment.isEmpty then none
  else
    let avg_score := npMean scores_in_segment
    some (if has_target_face then avg_score * SCORING_WEIGHTS.face_boost else avg_score)

/-- The per-segment dict appended at video_analyzer.py lines 222-228. -/
structure SegmentScore where
  start_time : ℚ
  score : ℚ
  has_target_face : Bool
  video_index : ℕ
  face_locations : List FaceData

/-- The clip dict built at video_analyzer.py lines 305-313 (keys `start`,
`end`, `duration`, `score`, `has_target_face`, `video_index`,
`face_locations`). -/
structure ClipInterval where
  start_time : ℚ
  end_time : ℚ
  duration : ℚ
  score : ℚ
  has_target_face : Bool
  video_index : ℕ
  face_locations : List FaceData

/-- The loop body of `create_clips_from_segments`
(video_analyzer.py lines 275-314).  `uniform n a b` is the oracle for the
`random.uniform(a, b)` draw of line 295 (`n` counts the draws made so far);
`used_times` is the set of accepted start times. -/
def create_clips_aux (uniform : ℕ → ℚ → ℚ → ℚ)
    (video_duration min_clip max_clip min_dist : ℚ) :
    List SegmentScore → List ℚ → ℕ → List ClipInterval
  | [], _, _ => []
  | segment :: rest, used_times, n =>
    let start := segment.start_time
    if used_times.any (fun used_time => decide (|start - used_time| < min_dist)) then
      create_clips_aux uniform video_duration min_clip max_clip min_dist rest used_times n
    else
      let remaining_duration := video_duration - start
      if remaining_duration < min_clip then
        create_clips_aux uniform video_duration min_clip max_clip min_dist rest used_times n
      else
        let max_possible_duration := min max_clip remaining_duration
        let clip_duration := uniform n min_clip max_possible_duration
        let end_time := start + clip_duration
        let end_time2 := if video_duration < end_time then video_duration else end_time
        let clip_duration2 :=
          if video_duration < end_time then video_duration - start else clip_duration
        if min_clip ≤ clip_duration2 ∧ start < video_duration then
          { start_time := start, end_time := end_time2, duration := clip_duration2,
            score := segment.score, has_target_face := segment.has_target_face,
            video_index := segment.video_index, face_locations := segment.face_locations } ::
            create_clips_aux uniform video_duration min_clip max_clip min_dist rest
              (start :: used_times) (n + 1)
        else
          create_clips_aux uniform video_duration min_clip max_clip min_dist rest used_times (n + 1)

/-- video_analyzer.py lines 253-316 (`create_clips_from_segments`). -/
def create_clips_from_segments (uniform : ℕ → ℚ → ℚ → ℚ)
    (segment_scores : List SegmentScore) (video_duration min_clip max_clip : ℚ)
    (min_distance_between_clips : ℚ := 5) : List ClipInterval :=
  create_clips_aux uniform video_duration min_clip max_clip min_distance_between_clips
    segment_scores [] 0

/-- video_analyzer.py line 244 probes `'force_diversity' in locals()`; the name
`force_diversity` is never bound anywhere in
`analyze_video_segments_with_face` (it is neither a parameter nor assigned), so
the membership test is False on every call. -/
def force_diversity_in_locals : Bool := false

/-- video_analyzer.py line 244:
`min_distance = 10.0 if 'force_diversity' in locals() and force_diversity else
5.0`.  The `force_diversity` argument is the value the never-defined local
would have if it existed. -/
def analyzer_min_distance (force_diversity : Bool) : ℚ :=
  if force_diversity_in_locals && force_diversity then 10 else 5

/-- video_analyzer.py lines 75-251 (`analyze_video_segments_with_face`),
with the external media accesses abstracted: the duration is computed from the
`cv2.VideoCapture` properties (line 110), and `segmentEval start` is the oracle
for the per-segment frame loop of lines 150-212, returning the list of
per-frame signals actually scored, the `has_target_face` flag, and the face
locations collected. -/
def analyze_video_segments_with_face
    (fps total_frames : ℕ)
    (target_face_present : Bool)
    (segmentEval : ℚ → List FrameSignals × Bool × List FaceData)
    (uniform : ℕ → ℚ → ℚ → ℚ)
    (min_clip_duration max_clip_duration : ℚ)
    (video_index : ℕ)
    (analysis_mode : AnalysisModeKey)
    (exclude_first_seconds : ℚ)
    (force_diversity : Bool) : List ClipInterval :=
  let duration : ℚ := if 0 < fps then (total_frames : ℚ) / (fps : ℚ) else 0
  if duration < min_clip_duration then []
  else
    let mode_params := ANALYSIS_MODES analysis_mode
    let starts := segmentStarts duration exclude_first_seconds min_clip_duration
      mode_params.segment_duration mode_params.max_segments
    let segment_scores := starts.filterMap (fun start_time =>
      let data := segmentEval start_time
      (segment_aggregate_score data.1 data.2.1).map (fun avg_score =>
        ({ start_time := start_time, score := avg_score, has_target_face := data.2.1,
           video_index := video_index, face_locations := data.2.2 } : SegmentScore)))
    let sorted := segment_scores.mergeSort (fun a b => decide (b.score ≤ a.score))
    let prioritized :=
      if target_face_present then
        sorted.filter (fun s => s.has_target_face) ++
          sorted.filter (fun s => !s.has_target_face)
      else sorted
    create_clips_from_segments uniform prioritized duration min_clip_duration
      max_clip_duration (analyzer_min_distance force_diversity)

/- ------------------------------------------------------------------ -/
/- Clip normalization, from src/video_normalizer.py                    -/
/- ------------------------------------------------------------------ -/

/-- Frame dimensions of a clip (`clip.size` in MoviePy, a `(width, height)`
pair of integers). -/
structure ClipFormat where
  width : ℤ
  height : ℤ
deriving DecidableEq

/-- One geometric operation applied by `normalize_clip_size`: a `clip.crop`
call or a `clip.resize` call. -/
inductive NormOp where
  | crop (x1 x2 y1 y2 : ℤ) : NormOp
  | resize (w h : ℤ) : NormOp
deriving DecidableEq

/-- video_normalizer.py lines 12-55 (`normalize_clip_size`): returns the final
frame size together with the trace of crop/resize operations applied.  Python
`int()` on the nonnegative products becomes `pyInt`; `// 2` is Python floor
division. -/
def normalize_clip_size (clip : ClipFormat) (target_width target_height : ℤ) :
    ClipFormat × List NormOp :=
  let target_part : ℚ := (target_width : ℚ) / (target_height : ℚ)
  if clip.width = target_width ∧ clip.height = target_height then (clip, [])
  else
    let current_part : ℚ := (clip.width : ℚ) / (clip.height : ℚ)
    if |current_part - target_part| < 1/10 then
      (⟨target_width, target_height⟩, [NormOp.resize target_width target_height])
    else if target_part < current_part then
      let new_width := pyInt ((clip.height : ℚ) * target_part)
      let x_start := Int.fdiv (clip.width - new_width) 2
      (⟨target_width, target_height⟩,
        [NormOp.crop x_start (x_start + new_width) 0 clip.height,
         NormOp.resize target_width target_height])
    else
      let new_height := pyInt ((clip.width : ℚ) / target_part)
      let y_start := Int.fdiv (clip.height - new_height) 2
      (⟨target_width, target_height⟩,
        [NormOp.crop 0 clip.width y_start (y_start + new_height),
         NormOp.resize target_width target_height])

/- ------------------------------------------------------------------ -/
/- Safe concatenation, from src/video_assembler.py                     -/
/- ------------------------------------------------------------------ -/

/-- One round of the pairwise-fallback loop of
`safe_concatenate_with_materialization` (video_assembler.py lines 253-274):
adjacent pairs are concatenated and materialized left to right; a pair whose
concatenation returns a falsy value or whose materialization fails is dropped;
an odd trailing clip is carried over; an exception raised by
`concatenate_videoclips` (`Except.error`) aborts the whole round.
`materialize` abstracts `materialize_clip` (may fail: `none`); `concatOp`
abstracts `concatenate_videoclips` (`Except.error` models a raised exception,
`Except.ok none` a falsy return value). -/
def pairwiseRound {α : Type} (materialize : α → Option α)
    (concatOp : List α → Except Unit (Option α)) : List α → Except Unit (List α)
  | [] => Except.ok []
  | [c] => Except.ok [c]
  | a :: b :: rest =>
    match concatOp [a, b] with
    | Except.error e => Except.error e
    | Except.ok none => pairwiseRound materialize concatOp rest
    | Except.ok (some pair_concat) =>
      match materialize pair_concat with
      | none => pairwiseRound materialize concatOp rest
      | some pair_materialized =>
        (pairwiseRound materialize concatOp rest).map (fun l => pair_materialized :: l)

/-- A completed pairwise round at most halves the list (rounding up): the round
yields one clip per adjacent pair plus at most the odd leftover. -/
theorem pairwiseRound_length_le {α : Type} (materialize : α → Option α)
    (concatOp : List α → Except Unit (Option α)) :
    ∀ (l out : List α), pairwiseRound materialize concatOp l = Except.ok out →
      out.length ≤ (l.length + 1) / 2
  | [], out, h => by
    simp only [pairwiseRound, Except.ok.injEq] at h
    simp [← h]
  | [c], out, h => by
    simp only [pairwiseRound, Except.ok.injEq] at h
    simp [← h]
  | a :: b :: rest, out, h => by
    simp only [pairwiseRound] at h
    cases hc : concatOp [a, b] with
    | error e => rw [hc] at h; exact absurd h (by simp)
    | ok v =>
      rw [hc] at h
      cases v with
      | none =>
        have := pairwiseRound_length_le materialize concatOp rest out h
        simp only [List.length_cons]
        omega
      | some pair_concat =>
        dsimp only at h
        cases hm : materialize pair_concat with
        | none =>
          rw [hm] at h
          dsimp only at h
          have := pairwiseRound_length_le materialize concatOp rest out h
          simp only [List.length_cons]
          omega
        | some pm =>
          rw [hm] at h
          dsimp only at h
          cases hr : pairwiseRound materialize concatOp rest with
          | error e => rw [hr] at h; exact absurd h (by simp [Except.map])
          | ok l =>
            rw [hr] at h
            simp only [Except.map, Except.ok.injEq] at h
            have := pairwiseRound_length_le materialize concatOp rest l hr
            simp only [← h, List.length_cons]
            omega

/-- The `while len(materialized_clips) > 1` fallback loop of
video_assembler.py lines 250-292, together with the last-resort return of the
first clip of the current list (lines 286-292): a raised exception inside a
round falls through to the last resort with the list as it stood before that
round; a round shrinking the list to exactly one clip returns it; a round
shrinking it to zero exits the loop and the last resort on the empty list
yields `none` (line 292). -/
def pairwiseFallback {α : Type} (materialize : α → Option α)
    (concatOp : List α → Except Unit (Option α)) (cur : List α) : Option α :=
  if h : 1 < cur.length then
    match hr : pairwiseRound materialize concatOp cur with
    | Except.error _ => cur.head?
    | Except.ok new_clips =>
      if new_clips.length = 1 then new_clips.head?
      else pairwiseFallback materialize concatOp new_clips
  else cur.head?
termination_by cur.length
decreasing_by
  have hle := pairwiseRound_length_le materialize concatOp cur new_clips hr
  omega

/-- video_assembler.py lines 166-292 (`safe_concatenate_with_materialization`):
empty input fails; a single clip is materialized directly; otherwise every
input is materialized first (failures skipped), one bulk concatenation is
attempted and its result materialized; a raised bulk exception triggers the
pairwise fallback when more than two clips were materialized, and otherwise
(and after a failed fallback) the first materialized clip is returned. -/
def safe_concatenate_with_materialization {α : Type} (materialize : α → Option α)
    (concatOp : List α → Except Unit (Option α)) (clips : List α) : Option α :=
  match clips with
  | [] => none
  | [c] => materialize c
  | _ :: _ :: _ =>
    let materialized_clips := clips.filterMap materialize
    if materialized_clips.isEmpty then none
    else
      match concatOp materialized_clips with
      | Except.ok none => none
      | Except.ok (some concatenated) => materialize concatenated
      | Except.error _ =>
        if 2 < materialized_clips.length then
          pairwiseFallback materialize concatOp materialized_clips
        else
          materialized_clips.head?

/- ------------------------------------------------------------------ -/
/- Theorems                                                            -/
/- ------------------------------------------------------------------ -/

/-- C2 counterexample: the claim states that a text score of exactly 0.3 yields
the penalty 0.1 and exactly 0.2 yields 0.5; the code compares with strict
`>`, so exactly 0.3 yields the medium penalty 0.5 and exactly 0.2 yields no
penalty at all (1.0). -/
theorem C2_counterexample :
    calculate_text_penalty (3/10) = 1/2 ∧ (1/2 : ℚ) ≠ 1/10 ∧
    calculate_text_penalty (1/5) = 1 ∧ (1 : ℚ) ≠ 1/2 := by
  refine ⟨?_, by norm_num, ?_, by norm_num⟩ <;>
    norm_num [calculate_text_penalty, DETECTION_PARAMS]

/-- C2 (amended): the text penalty is 1.0 for scores up to and including 0.2,
0.5 for scores strictly above 0.2 up to and including 0.3, and 0.1 for scores
strictly above 0.3; in particular 0.1 maps to 1.0, 0.25 to 0.5, 0.35 to 0.1,
while the boundary values 0.3 and 0.2 map to 0.5 and 1.0. -/
theorem C2_text_penalty_behaviour :
    calculate_text_penalty (1/10) = 1 ∧
    calculate_text_penalty (1/4) = 1/2 ∧
    calculate_text_penalty (7/20) = 1/10 ∧
    calculate_text_penalty (3/10) = 1/2 ∧
    calculate_text_penalty (1/5) = 1 ∧
    (∀ t : ℚ, 3/10 < t → calculate_text_penalty t = 1/10) ∧
    (∀ t : ℚ, 1/5 < t → t ≤ 3/10 → calculate_text_penalty t = 1/2) ∧
    (∀ t : ℚ, t ≤ 1/5 → calculate_text_penalty t = 1) := by
  have hnum : ∀ t : ℚ, 3/10 < t → calculate_text_penalty t = 1/10 := by
    intro t ht
    unfold calculate_text_penalty
    rw [if_pos ht]
    rfl
  have hmed : ∀ t : ℚ, 1/5 < t → t ≤ 3/10 → calculate_text_penalty t = 1/2 := by
    intro t h1 h2
    unfold calculate_text_penalty
    rw [if_neg (not_lt.mpr h2), if_pos h1]
    rfl
  have hnone : ∀ t : ℚ, t ≤ 1/5 → calculate_text_penalty t = 1 := by
    intro t ht
    have h1 : ¬ (3/10 : ℚ) < t := not_lt.mpr (le_trans ht (by norm_num))
    have h2 : ¬ (1/5 : ℚ) < t := not_lt.mpr ht
    unfold calculate_text_penalty
    rw [if_neg h1, if_neg h2]
  exact ⟨hnone (1/10) (by norm_num), hmed (1/4) (by norm_num) (by norm_num),
    hnum (7/20) (by norm_num), hmed (3/10) (by norm_num) (by norm_num),
    hnone (1/5) (by norm_num), hnum, hmed, hnone⟩

/-- C2 witness: the strictly-above-0.3 branch evaluated at 0.35. -/
theorem C2_witness : (3/10 : ℚ) < 7/20 ∧ calculate_text_penalty (7/20) = 1/10 :=
  ⟨by norm_num, C2_text_penalty_behaviour.2.2.2.2.2.1 (7/20) (by norm_num)⟩

/-- C7 counterexample: with the (hypothetical) diversity option enabled the
minimum distance is still 5.0, not 10.0, because the `'force_diversity' in
locals()` guard of video_analyzer.py line 244 is always False. -/
theorem C7_counterexample :
    analyzer_min_distance true = 5 ∧ (5 : ℚ) ≠ 10 := by
  constructor
  · simp [analyzer_min_distance, force_diversity_in_locals]
  · norm_num

/-- C7 (amended): the minimum distance between accepted clip start times is
5.0 seconds for every value of the diversity flag; the branch that would raise
it to 10.0 is dead code because `force_diversity` is never bound in the
analyzer's local scope. -/
theorem C7_min_distance_always_default :
    ∀ force_diversity : Bool, analyzer_min_distance force_diversity = 5 := by
  intro d
  simp [analyzer_min_distance, force_diversity_in_locals]

/-- C9: normalizing a clip already at the target size returns the clip itself
with no crop or resize operation, and a clip whose aspect difference to the
target is below 0.1 receives exactly one direct resize and no crop. -/
theorem C9_normalize_passthrough_and_direct_resize :
    (∀ (clip : ClipFormat) (tw th : ℤ), clip.width = tw → clip.height = th →
      normalize_clip_size clip tw th = (clip, [])) ∧
    (∀ (clip : ClipFormat) (tw th : ℤ), ¬(clip.width = tw ∧ clip.height = th) →
      |(clip.width : ℚ) / (clip.height : ℚ) - (tw : ℚ) / (th : ℚ)| < 1/10 →
      normalize_clip_size clip tw th = (⟨tw, th⟩, [NormOp.resize tw th])) := by
  constructor
  · intro clip tw th hw hh
    simp [normalize_clip_size, hw, hh]
  · intro clip tw th hne hclose
    simp only [normalize_clip_size]
    rw [if_neg hne, if_pos hclose]

/-- C9 witness: a 1080x1920 clip passes through a 1080x1920 normalization
untouched, and a 1000x1800 clip (aspect within 0.1 of 9:16) gets only the
direct resize. -/
theorem C9_witness :
    normalize_clip_size ⟨1080, 1920⟩ 1080 1920 = (⟨1080, 1920⟩, []) ∧
    normalize_clip_size ⟨1000, 1800⟩ 1080 1920 =
      (⟨1080, 1920⟩, [NormOp.resize 1080 1920]) :=
  ⟨C9_normalize_passthrough_and_direct_resize.1 ⟨1080, 1920⟩ 1080 1920 rfl rfl,
   C9_normalize_passthrough_and_direct_resize.2 ⟨1000, 1800⟩ 1080 1920
     (by simp) (by rw [abs_lt]; constructor <;> norm_num)⟩

/-- C4: whenever at least one frame of a segment was scored, the segment
aggregate with `has_target_face = True` is exactly the mean of the per-frame
combined scores times 2.0 (the `face_boost` weight), applied once; without the
flag the aggregate is the plain mean. -/
theorem C4_face_boost_applied_once :
    ∀ frames : List FrameSignals, frames ≠ [] →
      segment_aggregate_score frames true =
        some (npMean (frames.map frame_total_score) * 2) ∧
      segment_aggregate_score frames false =
        some (npMean (frames.map frame_total_score)) := by
  intro frames hne
  have h : (frames.map frame_total_score).isEmpty = false := by
    cases frames with
    | nil => exact absurd rfl hne
    | cons a l => simp
  constructor <;> simp [segment_aggregate_score, h, SCORING_WEIGHTS]

/-- C4 witness: the boost evaluated on a one-frame segment. -/
theorem C4_witness :
    segment_aggregate_score [⟨1, 1, 1, 1⟩] true =
      some (npMean ([(⟨1, 1, 1, 1⟩ : FrameSignals)].map frame_total_score) * 2) :=
  (C4_face_boost_applied_once [⟨1, 1, 1, 1⟩] (by simp)).1

/-- C8: when the computed source duration (frame count over fps, zero for a
non-positive fps) is strictly below the minimum clip duration, the segment
analyzer returns the empty list immediately; the embedding is a total
function, so no error is raised. -/
theorem C8_short_video_returns_empty :
    ∀ (fps total_frames : ℕ) (target_face_present : Bool)
      (segmentEval : ℚ → List FrameSignals × Bool × List FaceData)
      (uniform : ℕ → ℚ → ℚ → ℚ) (min_clip_duration max_clip_duration : ℚ)
      (video_index : ℕ) (analysis_mode : AnalysisModeKey)
      (exclude_first_seconds : ℚ) (force_diversity : Bool),
      (if 0 < fps then (total_frames : ℚ) / (fps : ℚ) else 0) < min_clip_duration →
      analyze_video_segments_with_face fps total_frames target_face_present
        segmentEval uniform min_clip_duration max_clip_duration video_index
        analysis_mode exclude_first_seconds force_diversity = [] := by
  intro fps total_frames tfp se u mc xc vi am ex fd h
  simp only [analyze_video_segments_with_face]
  rw [if_pos h]

/-- C8 witness: a 1-second video (30 frames at 30 fps) with a 3-second minimum
clip duration yields no segments. -/
theorem C8_witness :
    analyze_video_segments_with_face 30 30 false (fun _ => ([], false, []))
      (fun _ a _ => a) 3 8 0 AnalysisModeKey.precis 0 false = [] :=
  C8_short_video_returns_empty 30 30 false (fun _ => ([], false, []))
    (fun _ a _ => a) 3 8 0 AnalysisModeKey.precis 0 false (by norm_num)

/-- Every confidence kept by the EAST threshold filter is at least the
detection threshold 0.5. -/
theorem mem_east_confidences_ge (rows : List (List ℚ)) (x : ℚ)
    (hx : x ∈ (rows.map (fun row =>
      row.filter (fun s => decide (DETECTION_PARAMS.text_detection_threshold ≤ s)))).flatten) :
    (1/2 : ℚ) ≤ x := by
  rw [List.mem_flatten] at hx
  obtain ⟨l, hl, hxl⟩ := hx
  rw [List.mem_map] at hl
  obtain ⟨row, _, rfl⟩ := hl
  rw [List.mem_filter] at hxl
  have h := of_decide_eq_true hxl.2
  simpa [DETECTION_PARAMS] using h

/-- The EAST-grid score is always between 0 and 1: kept confidences are
nonnegative, so the pre-cap score is nonnegative, and both caps are `min _ 1`. -/
theorem east_text_score_bounds (rows : List (List ℚ)) :
    0 ≤ east_text_score rows ∧ east_text_score rows ≤ 1 := by
  simp only [east_text_score, npMean]
  set conf := (rows.map (fun row =>
    row.filter (fun s => decide (DETECTION_PARAMS.text_detection_threshold ≤ s)))).flatten with hconf
  have hsum : 0 ≤ conf.sum :=
    List.sum_nonneg (fun x hx =>
      le_trans (by norm_num) (mem_east_confidences_ge rows x (hconf ▸ hx)))
  have hts0 : 0 ≤ ((conf.length : ℚ) / 20) * (conf.sum / (conf.length : ℚ)) :=
    mul_nonneg (div_nonneg (Nat.cast_nonneg _) (by norm_num))
      (div_nonneg hsum (Nat.cast_nonneg _))
  have hbase0 : 0 ≤ min (((conf.length : ℚ) / 20) * (conf.sum / (conf.length : ℚ))) 1 :=
    le_min hts0 zero_le_one
  split_ifs with h1 h2
  · exact ⟨le_min (mul_nonneg hbase0 (by norm_num)) zero_le_one, min_le_right _ _⟩
  · exact ⟨hbase0, min_le_right _ _⟩
  · norm_num

/-- C10: `detect_text_in_frame` always yields a value in [0, 1]; it is 0 when
no network is supplied or when an internal step raised (either the top-level
exception flag or an EAST failure outside the subtitle shortcut), it is 0.8
exactly when the subtitle heuristic fires (more than 1 percent near-white
pixels in the bottom zone while focusing on subtitles), and otherwise the
EAST-derived score capped at 1. -/
theorem detect_text_in_frame_reduce (foc : Bool) (r : ℚ)
    (e : Option (List (List ℚ))) :
    detect_text_in_frame true false foc r e =
      if (foc && decide ((1:ℚ)/100 < r)) = true then 4/5
      else match e with | none => 0 | some rows => east_text_score rows := rfl

theorem C10_detect_text_range :
    (∀ (has_net frame_error focus : Bool) (r : ℚ) (e : Option (List (List ℚ))),
      0 ≤ detect_text_in_frame has_net frame_error focus r e ∧
      detect_text_in_frame has_net frame_error focus r e ≤ 1) ∧
    (∀ (frame_error focus : Bool) (r : ℚ) (e : Option (List (List ℚ))),
      detect_text_in_frame false frame_error focus r e = 0) ∧
    (∀ (focus : Bool) (r : ℚ) (e : Option (List (List ℚ))),
      detect_text_in_frame true true focus r e = 0) ∧
    (∀ (focus : Bool) (r : ℚ), ¬(focus = true ∧ 1/100 < r) →
      detect_text_in_frame true false focus r none = 0) ∧
    (∀ (r : ℚ) (e : Option (List (List ℚ))), 1/100 < r →
      detect_text_in_frame true false true r e = 4/5) := by
  refine ⟨?_, ?_, ?_, ?_, ?_⟩
  · intro hn fe foc r e
    cases hn with
    | false => norm_num [detect_text_in_frame]
    | true =>
      cases fe with
      | true => norm_num [detect_text_in_frame]
      | false =>
        rw [detect_text_in_frame_reduce]
        cases hs : (foc && decide ((1:ℚ)/100 < r)) with
        | true =>
          rw [if_pos rfl]
          norm_num
        | false =>
          rw [if_neg (by simp)]
          cases e with
          | none => norm_num
          | some rows => exact east_text_score_bounds rows
  · intro fe foc r e
    simp [detect_text_in_frame]
  · intro foc r e
    simp [detect_text_in_frame]
  · intro foc r h
    rw [detect_text_in_frame_reduce, if_neg]
    simp only [Bool.and_eq_true, decide_eq_true_eq]
    exact h
  · intro r e h5
    rw [detect_text_in_frame_reduce,
      if_pos (by simp only [Bool.true_and, decide_eq_true_eq]; exact h5)]

/-- C10 witness: the subtitle heuristic at 2 percent white pixels yields 0.8,
and a non-firing heuristic with a failed EAST run yields 0. -/
theorem C10_witness :
    detect_text_in_frame true false true (2/100) none = 4/5 ∧
    detect_text_in_frame true false false 0 none = 0 :=
  ⟨C10_detect_text_range.2.2.2.2 (2/100) none (by norm_num),
   C10_detect_text_range.2.2.2.1 false 0 (by simp)⟩

/-- C6 counterexample: a face with bounding box top 40, bottom 70 in a frame of
height 100 has its vertical center at 55 percent, i.e. in the lower half (and
not in the lower third), so the claim predicts position multiplier 0.7 and
per-face score 42; the code keys the position penalty on the top edge
(40 percent, not below 50 percent) and scores the face 60. -/
theorem C6_counterexample :
    calculate_face_score
      (detect_faces_in_frame 100 100 [⟨40, 30, 70, 10, 1⟩] true (2/5)) true = 60 ∧
    (1/2 : ℚ) < ((40 + 70) / 2) / 100 ∧
    ((40 + 70 : ℚ) / 2) / 100 ≤ 2/3 ∧
    (60 : ℚ) ≠ ((20 * 30) / (100 * 100) * 1000) * (7/10) := by
  refine ⟨?_, by norm_num, by norm_num, by norm_num⟩
  norm_num [calculate_face_score, detect_faces_in_frame, mkFaceData, DETECTION_PARAMS]

/-- C6 (amended): the frame face score equals the sum over detected faces of
`(face_area / frame_area) * 1000` times a position multiplier keyed on the top
edge of the bounding box (0.3 when `top / frame_height > 0.7`, 0.7 when
`> 0.5`, else 1.0), each term tripled when the target is being searched and the
face's embedding distance is below the threshold, the total multiplied by 1.2
when more than one face was detected. -/
theorem C6_face_score_formula :
    ∀ (W H threshold : ℚ) (locs : List FaceLocation) (has_target henc : Bool),
      calculate_face_score (detect_faces_in_frame W H locs henc threshold) has_target =
        ((locs.map (fun f =>
          let base := ((f.right - f.left) * (f.bottom - f.top)) / (W * H) * 1000 *
            (if 7/10 < f.top / H then 3/10
             else if 1/2 < f.top / H then 7/10 else 1)
          if has_target && (henc && decide (f.distance < threshold)) then base * 3
          else base)).sum *
        (if 1 < locs.length then 6/5 else 1)) := by
  intro W H th locs ht henc
  cases locs with
  | nil => simp [calculate_face_score, detect_faces_in_frame]
  | cons a l =>
    have hie : ((a :: l).map (mkFaceData W H th henc)).isEmpty = false := rfl
    simp only [calculate_face_score, detect_faces_in_frame, hie, Bool.false_eq_true,
      if_false, List.map_map, List.length_map]
    rw [mul_ite, mul_one]
    rfl

/-- When no iteration within the fuel budget overruns the video, the segment
loop never breaks and produces one start per loop index. -/
theorem segmentStartsAux_no_break (D S mc sd : ℚ) :
    ∀ (fuel i : ℕ),
      (∀ j : ℕ, j < fuel → S + ((i + j : ℕ) : ℚ) * sd + mc ≤ D) →
      segmentStartsAux D S mc sd i fuel =
        (List.range fuel).map (fun j => S + ((i + j : ℕ) : ℚ) * sd)
  | 0, i, _ => by simp [segmentStartsAux]
  | fuel + 1, i, h => by
    have h0 : S + (i : ℚ) * sd + mc ≤ D := by
      have := h 0 (Nat.succ_pos fuel)
      simpa using this
    have hrec := segmentStartsAux_no_break D S mc sd fuel (i + 1) (fun j hj => by
      have hx := h (j + 1) (by omega)
      have heq : (i + (j + 1) : ℕ) = (i + 1 + j : ℕ) := by omega
      rw [heq] at hx
      exact hx)
    simp only [segmentStartsAux]
    rw [if_neg (not_lt.mpr h0), hrec, List.range_succ_eq_map, List.map_cons, List.map_map]
    congr 1
    apply List.map_congr_left
    intro a _
    simp only [Function.comp_apply]
    push_cast
    ring

/-- C3: under a positive segment duration and a nonnegative available span,
the analyzer examines exactly `min(max_segments, floor((D - S -
min_clip)/segment_duration))` segments, segment `i` starts at
`S + i * segment_duration`, no examined segment has `start + min_clip > D`
(the break of line 147 never cuts the loop short under these hypotheses), and
the concrete instance duration=100, exclude_first=0, min_clip=3,
segment_duration=1.5, max_segments=60 yields 60 segments. -/
theorem C3_segment_count :
    (∀ (duration exclude_first min_clip sd : ℚ) (max_segments : ℕ),
      0 < sd → 0 ≤ duration - exclude_first - min_clip →
      (((segmentStarts duration exclude_first min_clip sd max_segments).length : ℤ) =
        min (max_segments : ℤ) ⌊(duration - exclude_first - min_clip) / sd⌋) ∧
      (∀ i : ℕ, i < (segmentStarts duration exclude_first min_clip sd max_segments).length →
        (segmentStarts duration exclude_first min_clip sd max_segments)[i]? =
          some (exclude_first + (i : ℚ) * sd)) ∧
      (∀ s ∈ segmentStarts duration exclude_first min_clip sd max_segments,
        ¬ duration < s + min_clip)) ∧
    (segmentStarts 100 0 3 (3/2) 60).length = 60 ∧
    ⌊(100 - 0 - 3 : ℚ) / (3/2)⌋ = 64 ∧ min (60 : ℤ) 64 = 60 := by
  have main : ∀ (duration exclude_first min_clip sd : ℚ) (max_segments : ℕ),
      0 < sd → 0 ≤ duration - exclude_first - min_clip →
      (((segmentStarts duration exclude_first min_clip sd max_segments).length : ℤ) =
        min (max_segments : ℤ) ⌊(duration - exclude_first - min_clip) / sd⌋) ∧
      (∀ i : ℕ, i < (segmentStarts duration exclude_first min_clip sd max_segments).length →
        (segmentStarts duration exclude_first min_clip sd max_segments)[i]? =
          some (exclude_first + (i : ℚ) * sd)) ∧
      (∀ s ∈ segmentStarts duration exclude_first min_clip sd max_segments,
        ¬ duration < s + min_clip) := by
    intro D S mc sd M hsd hav
    set x : ℚ := (D - S - mc) / sd with hxdef
    have hx : 0 ≤ x := div_nonneg hav (le_of_lt hsd)
    have hpy : pyInt x = ⌊x⌋ := by rw [pyInt, if_pos hx]
    have hfl : (0 : ℤ) ≤ ⌊x⌋ := Int.floor_nonneg.mpr hx
    have hN0 : (0 : ℤ) ≤ min (M : ℤ) ⌊x⌋ := le_min (Int.ofNat_nonneg M) hfl
    have hfuel : (((min (M : ℤ) ⌊x⌋).toNat : ℤ)) = min (M : ℤ) ⌊x⌋ :=
      Int.toNat_of_nonneg hN0
    have hcond : ∀ j : ℕ, j < (min (M : ℤ) ⌊x⌋).toNat →
        S + ((0 + j : ℕ) : ℚ) * sd + mc ≤ D := by
      intro j hj
      have h1 : (j : ℤ) < min (M : ℤ) ⌊x⌋ := by omega
      have h2 : (j : ℤ) < ⌊x⌋ := lt_of_lt_of_le h1 (min_le_right _ _)
      have h3 : (j : ℚ) < (⌊x⌋ : ℚ) := by exact_mod_cast h2
      have hjx : (j : ℚ) ≤ x := le_of_lt (lt_of_lt_of_le h3 (Int.floor_le x))
      have h4 : (j : ℚ) * sd ≤ x * sd := mul_le_mul_of_nonneg_right hjx (le_of_lt hsd)
      have h5 : x * sd = D - S - mc := div_mul_cancel₀ _ (ne_of_gt hsd)
      rw [h5] at h4
      push_cast
      linarith
    have hrw : segmentStarts D S mc sd M =
        (List.range (min (M : ℤ) ⌊x⌋).toNat).map (fun j => S + ((0 + j : ℕ) : ℚ) * sd) := by
      rw [segmentStarts, num_segments, ← hxdef, hpy]
      exact segmentStartsAux_no_break D S mc sd _ 0 hcond
    have hlen : (segmentStarts D S mc sd M).length = (min (M : ℤ) ⌊x⌋).toNat := by
      rw [hrw, List.length_map, List.length_range]
    refine ⟨?_, ?_, ?_⟩
    · rw [hlen, hfuel]
    · intro i hi
      rw [hlen] at hi
      rw [hrw, List.getElem?_map, List.getElem?_range hi]
      simp
    · intro s hs
      rw [hrw, List.mem_map] at hs
      obtain ⟨j, hj, rfl⟩ := hs
      rw [List.mem_range] at hj
      exact not_lt.mpr (hcond j hj)
  have hfloor : ⌊(100 - 0 - 3 : ℚ) / (3/2)⌋ = 64 := by
    rw [Int.floor_eq_iff]
    norm_num
  refine ⟨main, ?_, hfloor, by norm_num⟩
  have h60 := (main 100 0 3 (3/2) 60 (by norm_num) (by norm_num)).1
  rw [hfloor] at h60
  omega

/-- C3 witness: the general count formula applied at duration 100, exclusion 0,
minimum clip 3, segment duration 1.5, 60 max segments. -/
theorem C3_witness :
    ((0 : ℚ) < 3/2) ∧ ((0 : ℚ) ≤ 100 - 0 - 3) ∧
    (((segmentStarts 100 0 3 (3/2) 60).length : ℤ) =
      min ((60 : ℕ) : ℤ) ⌊(100 - 0 - 3 : ℚ) / (3/2)⌋) :=
  ⟨by norm_num, by norm_num,
    (C3_segment_count.1 100 0 3 (3/2) 60 (by norm_num) (by norm_num)).1⟩

/-- Every clip accepted by the selection loop satisfies the duration and
end-time bounds, and its start time is the start time of one of the input
segments.  Requires the `random.uniform` oracle to stay between its bounds and
`min_clip ≤ max_clip`. -/
theorem create_clips_aux_mem (uniform : ℕ → ℚ → ℚ → ℚ) (vd mc xc d : ℚ)
    (hu : ∀ (n : ℕ) (a b : ℚ), min a b ≤ uniform n a b ∧ uniform n a b ≤ max a b)
    (hmx : mc ≤ xc) :
    ∀ (segs : List SegmentScore) (used : List ℚ) (n : ℕ) (c : ClipInterval),
      c ∈ create_clips_aux uniform vd mc xc d segs used n →
      mc ≤ c.duration ∧ c.duration ≤ xc ∧ c.end_time ≤ vd ∧
        ∃ s ∈ segs, c.start_time = s.start_time
  | [], used, n, c, h => absurd h (by simp [create_clips_aux])
  | seg :: rest, used, n, c, h => by
    have tail_case : ∀ (used' : List ℚ) (n' : ℕ),
        c ∈ create_clips_aux uniform vd mc xc d rest used' n' →
        mc ≤ c.duration ∧ c.duration ≤ xc ∧ c.end_time ≤ vd ∧
          ∃ s ∈ seg :: rest, c.start_time = s.start_time := by
      intro used' n' h'
      obtain ⟨h1, h2, h3, s, hs, hst⟩ :=
        create_clips_aux_mem uniform vd mc xc d hu hmx rest used' n' c h'
      exact ⟨h1, h2, h3, s, List.mem_cons_of_mem _ hs, hst⟩
    simp only [create_clips_aux] at h
    split_ifs at h with h1 h2 hcl h3 h3
    · exact tail_case used n h
    · exact tail_case used n h
    · -- clamp branch: unreachable because the draw never exceeds the remainder
      exfalso
      have hrem : mc ≤ vd - seg.start_time := not_lt.mp h2
      have hmin : mc ≤ min xc (vd - seg.start_time) := le_min hmx hrem
      have hhi := (hu n mc (min xc (vd - seg.start_time))).2
      rw [max_eq_right hmin] at hhi
      have : uniform n mc (min xc (vd - seg.start_time)) ≤ vd - seg.start_time :=
        le_trans hhi (min_le_right _ _)
      linarith
    · exact tail_case used (n + 1) h
    · -- accept branch without clamping
      rcases List.mem_cons.mp h with rfl | h'
      · have hrem : mc ≤ vd - seg.start_time := not_lt.mp h2
        have hmin : mc ≤ min xc (vd - seg.start_time) := le_min hmx hrem
        have hhi := (hu n mc (min xc (vd - seg.start_time))).2
        rw [max_eq_right hmin] at hhi
        refine ⟨h3.1, ?_, ?_, seg, List.mem_cons_self _ _, rfl⟩
        · exact le_trans hhi (min_le_left _ _)
        · exact le_of_not_lt hcl
      · exact tail_case (seg.start_time :: used) (n + 1) h'
    · exact tail_case used (n + 1) h
  termination_by segs => segs.length

/-- Clips produced by the selection loop are pairwise at least `d` apart in
start time, and each keeps distance `d` from every already-used start time. -/
theorem create_clips_aux_separated (uniform : ℕ → ℚ → ℚ → ℚ) (vd mc xc d : ℚ) :
    ∀ (segs : List SegmentScore) (used : List ℚ) (n : ℕ),
      (∀ c ∈ create_clips_aux uniform vd mc xc d segs used n,
        ∀ u ∈ used, ¬ |c.start_time - u| < d) ∧
      List.Pairwise (fun a b : ClipInterval => ¬ |a.start_time - b.start_time| < d)
        (create_clips_aux uniform vd mc xc d segs used n)
  | [], used, n => by simp [create_clips_aux]
  | seg :: rest, used, n => by
    simp only [create_clips_aux]
    split_ifs with h1 h2 hcl h3 h3
    · exact create_clips_aux_separated uniform vd mc xc d rest used n
    · exact create_clips_aux_separated uniform vd mc xc d rest used n
    · -- accept branch (clamped duration)
      obtain ⟨hfar, hpw⟩ :=
        create_clips_aux_separated uniform vd mc xc d rest (seg.start_time :: used) (n + 1)
      have hnotclose : ∀ u ∈ used, ¬ |seg.start_time - u| < d := by
        intro u hu hlt
        exact h1 (List.any_eq_true.mpr ⟨u, hu, decide_eq_true hlt⟩)
      constructor
      · intro c hc u hu
        rcases List.mem_cons.mp hc with rfl | hc'
        · exact hnotclose u hu
        · exact hfar c hc' u (List.mem_cons_of_mem _ hu)
      · refine List.Pairwise.cons ?_ hpw
        intro b hb
        have hb' := hfar b hb seg.start_time (List.mem_cons_self _ _)
        intro hlt
        rw [abs_sub_comm] at hlt
        exact hb' hlt
    · exact create_clips_aux_separated uniform vd mc xc d rest used (n + 1)
    · -- accept branch (no clamping)
      obtain ⟨hfar, hpw⟩ :=
        create_clips_aux_separated uniform vd mc xc d rest (seg.start_time :: used) (n + 1)
      have hnotclose : ∀ u ∈ used, ¬ |seg.start_time - u| < d := by
        intro u hu hlt
        exact h1 (List.any_eq_true.mpr ⟨u, hu, decide_eq_true hlt⟩)
      constructor
      · intro c hc u hu
        rcases List.mem_cons.mp hc with rfl | hc'
        · exact hnotclose u hu
        · exact hfar c hc' u (List.mem_cons_of_mem _ hu)
      · refine List.Pairwise.cons ?_ hpw
        intro b hb
        have hb' := hfar b hb seg.start_time (List.mem_cons_self _ _)
        intro hlt
        rw [abs_sub_comm] at hlt
        exact hb' hlt
    · exact create_clips_aux_separated uniform vd mc xc d rest used (n + 1)
  termination_by segs => segs.length

/-- C1: every clip accepted by `create_clips_from_segments` has a duration
between the minimum and maximum clip durations, ends no later than the video,
and starts at a nonnegative time (given nonnegative segment starts); and no
two accepted clips have start times closer than the minimum distance.  The
`random.uniform` oracle is assumed to return a value between its two arguments,
and the configuration must satisfy `min_clip ≤ max_clip`. -/
theorem C1_clip_selector_invariants
    (uniform : ℕ → ℚ → ℚ → ℚ)
    (hu : ∀ (n : ℕ) (a b : ℚ), min a b ≤ uniform n a b ∧ uniform n a b ≤ max a b)
    (segs : List SegmentScore) (video_duration min_clip max_clip min_dist : ℚ)
    (hmx : min_clip ≤ max_clip)
    (hstarts : ∀ s ∈ segs, 0 ≤ s.start_time) :
    (∀ c ∈ create_clips_from_segments uniform segs video_duration min_clip max_clip min_dist,
      min_clip ≤ c.duration ∧ c.duration ≤ max_clip ∧
      c.end_time ≤ video_duration ∧ 0 ≤ c.start_time) ∧
    List.Pairwise (fun a b : ClipInterval => ¬ |a.start_time - b.start_time| < min_dist)
      (create_clips_from_segments uniform segs video_duration min_clip max_clip min_dist) := by
  constructor
  · intro c hc
    obtain ⟨h1, h2, h3, s, hs, hst⟩ :=
      create_clips_aux_mem uniform video_duration min_clip max_clip min_dist hu hmx
        segs [] 0 c hc
    exact ⟨h1, h2, h3, hst ▸ hstarts s hs⟩
  · exact (create_clips_aux_separated uniform video_duration min_clip max_clip min_dist
      segs [] 0).2

/-- C1 witness: the invariants instantiated with the lower-bound random oracle,
two segments at 0 and 2 seconds, a 20-second video, clip durations in [3, 8]
and distance 5. -/
theorem C1_witness :
    (∀ c ∈ create_clips_from_segments (fun _ a _ => a)
        [⟨0, 1, false, 0, []⟩, ⟨2, 1, false, 0, []⟩] 20 3 8 5,
      (3 : ℚ) ≤ c.duration ∧ c.duration ≤ 8 ∧ c.end_time ≤ 20 ∧ 0 ≤ c.start_time) ∧
    List.Pairwise (fun a b : ClipInterval => ¬ |a.start_time - b.start_time| < (5 : ℚ))
      (create_clips_from_segments (fun _ a _ => a)
        [⟨0, 1, false, 0, []⟩, ⟨2, 1, false, 0, []⟩] 20 3 8 5) :=
  C1_clip_selector_invariants (fun _ a _ => a)
    (fun _ a b => ⟨min_le_left a b, le_max_left a b⟩)
    [⟨0, 1, false, 0, []⟩, ⟨2, 1, false, 0, []⟩] 20 3 8 5 (by norm_num)
    (by
      intro s hs
      rcases List.mem_cons.mp hs with rfl | hs'
      · norm_num
      · rcases List.mem_singleton.mp hs' with rfl
        norm_num)

/-- C5: concatenation control flow.  (1) no clips fails; (2) one clip is
materialized directly; (3) with two or more clips, all inputs are materialized
first (failures skipped by `filterMap`) and a successful bulk concatenation is
itself materialized and returned; (4) a raised bulk exception with more than
two materialized clips enters the pairwise fallback; (5) when the first pair
concatenation of the fallback also raises, the first materialized clip is
returned; (6) a completed pairwise round at most halves the list; (7) a round
that reaches exactly one clip returns that clip. -/
theorem C5_safe_concatenate_behaviour :
    ∀ (α : Type) (materialize : α → Option α) (concatOp : List α → Except Unit (Option α)),
    (safe_concatenate_with_materialization materialize concatOp ([] : List α) = none) ∧
    (∀ c : α, safe_concatenate_with_materialization materialize concatOp [c] = materialize c) ∧
    (∀ (x y : α) (rest : List α) (concatenated : α),
      concatOp ((x :: y :: rest).filterMap materialize) = Except.ok (some concatenated) →
      ((x :: y :: rest).filterMap materialize).isEmpty = false →
      safe_concatenate_with_materialization materialize concatOp (x :: y :: rest) =
        materialize concatenated) ∧
    (∀ (x y : α) (rest : List α),
      concatOp ((x :: y :: rest).filterMap materialize) = Except.error () →
      2 < ((x :: y :: rest).filterMap materialize).length →
      safe_concatenate_with_materialization materialize concatOp (x :: y :: rest) =
        pairwiseFallback materialize concatOp ((x :: y :: rest).filterMap materialize)) ∧
    (∀ (a b : α) (rest : List α),
      concatOp [a, b] = Except.error () →
      pairwiseFallback materialize concatOp (a :: b :: rest) = some a) ∧
    (∀ (l out : List α), pairwiseRound materialize concatOp l = Except.ok out →
      out.length ≤ (l.length + 1) / 2) ∧
    (∀ (cur new_list : List α), 1 < cur.length →
      pairwiseRound materialize concatOp cur = Except.ok new_list →
      new_list.length = 1 →
      pairwiseFallback materialize concatOp cur = new_list.head?) := by
  intro α materialize concatOp
  refine ⟨rfl, fun c => rfl, ?_, ?_, ?_, pairwiseRound_length_le materialize concatOp, ?_⟩
  · intro x y rest concatenated hcat hne
    simp only [safe_concatenate_with_materialization, hne, Bool.false_eq_true, if_false, hcat]
  · intro x y rest hcat hlen
    have hne : ((x :: y :: rest).filterMap materialize).isEmpty = false := by
      cases hm : (x :: y :: rest).filterMap materialize with
      | nil => rw [hm] at hlen; simp at hlen
      | cons a l => rfl
    simp only [safe_concatenate_with_materialization, hne, Bool.false_eq_true, if_false, hcat]
    rw [if_pos hlen]
  · intro a b rest hpair
    have hround : pairwiseRound materialize concatOp (a :: b :: rest) = Except.error () := by
      simp only [pairwiseRound, hpair]
    unfold pairwiseFallback
    rw [dif_pos (by simp only [List.length_cons]; omega)]
    split
    · rfl
    · rename_i new_clips heq
      rw [hround] at heq
      exact absurd heq (by simp)
  · intro cur new_list hlen hround hone
    unfold pairwiseFallback
    rw [dif_pos hlen]
    split
    · rename_i e heq
      rw [hround] at heq
      exact absurd heq (by simp)
    · rename_i nl heq
      rw [hround] at heq
      injection heq with heq'
      subst heq'
      rw [if_pos hone]

/-- C5 witness: three clips whose materialization succeeds but whose every
concatenation raises; the bulk attempt fails, the pairwise fallback fails on
its first pair, and the first materialized clip is returned. -/
theorem C5_witness :
    safe_concatenate_with_materialization some (fun _ => Except.error ()) [10, 20, 30] =
      some 10 := by
  have hthm := C5_safe_concatenate_behaviour ℕ some (fun _ => Except.error ())
  have hd := hthm.2.2.2.1 10 20 [30] rfl (by decide)
  have he := hthm.2.2.2.2.1 10 20 [30] rfl
  rw [hd, show List.filterMap some [10, 20, 30] = [10, 20, 30] from rfl, he]

end VideoMixer
